import Mathlib

/-!
Shallow embedding of the AdminService event-handler logic of
`srv/admin-service.ts` (taskly-poc).

Modelling conventions:
* Calendar dates and timestamps are integers (`ℤ`) ordered as the
  corresponding dates are; `new Date(a) < new Date(b)` on date strings
  becomes `a < b`.
* Decimal fields (budget, actualCost, hours) are integers (`ℤ`); the code
  only compares and adds/subtracts them.
* Entity identifiers are `Nat`.  In the running system they are non-empty
  UUID strings, so JavaScript truthiness of an identifier coincides with
  presence; a field that may be `undefined`/absent is an `Option`.
* JavaScript truthiness of a number is `≠ 0`; `x || 0` on an optional
  number is `Option.getD 0` (for a present `0` both give `0`), and
  arithmetic on `null` coerces it to `0` (`Option.getD 0`).
* `req.error` collects a blocking error: the framework rejects the request
  (the write is not committed, actions fail hard) iff at least one error
  was collected.  `req.warn` collects a non-blocking warning attached to a
  successful response.
-/

namespace Taskly

/-- Task status enum of the schema: `TODO / IN_PROGRESS / IN_REVIEW / DONE / BLOCKED`. -/
inductive TaskStatus where
  | TODO
  | IN_PROGRESS
  | IN_REVIEW
  | DONE
  | BLOCKED
deriving DecidableEq, Repr

/-- A stored Project row (fields the handlers touch).  `budget` is optional,
`actualCost` defaults to `0` and is always present. -/
structure Project where
  ID : Nat
  name : String
  budget : Option ℤ
  actualCost : ℤ
  startDate : Option ℤ
  endDate : Option ℤ
deriving DecidableEq, Repr

/-- A stored Task row (fields the handlers touch). -/
structure Task where
  ID : Nat
  title : String
  status : TaskStatus
  dueDate : Option ℤ
  completedAt : Option ℤ
  assignedTo : Option String
  project_ID : Option Nat
deriving DecidableEq, Repr

/-- The persistence collaborator's state: the stored rows. -/
structure Store where
  projects : List Project
  tasks : List Task
deriving DecidableEq, Repr

/-- `SELECT.one.from(Projects).where({ID: pid})`. -/
def findProject (ps : List Project) (pid : Nat) : Option Project :=
  ps.find? (fun p => p.ID == pid)

/-- `SELECT.one.from(Tasks).where({ID: tid})`. -/
def findTask (ts : List Task) (tid : Nat) : Option Task :=
  ts.find? (fun t => t.ID == tid)

/-- `SELECT.from(Tasks).where({project_ID: pid})`. -/
def tasksOf (ts : List Task) (pid : Nat) : List Task :=
  ts.filter (fun t => t.project_ID == some pid)

/-- `SELECT.from(Tasks).where({project_ID: pid, status: {'!=': 'DONE'}})`
(status is a non-null enum column, default `TODO`). -/
def activeTasks (ts : List Task) (pid : Nat) : List Task :=
  ts.filter (fun t => t.project_ID == some pid && !(t.status == TaskStatus.DONE))

/-- The `req.data` payload of a Project CREATE/UPDATE request: every field
may be absent (partial update). -/
structure ProjectPayload where
  startDate : Option ℤ
  endDate : Option ℤ
  budget : Option ℤ
  actualCost : Option ℤ
deriving DecidableEq, Repr

/-- The `req.data` payload of a Task CREATE/UPDATE request. -/
structure TaskPayload where
  estimatedHours : Option ℤ
  actualHours : Option ℤ
  project_ID : Option Nat
deriving DecidableEq, Repr

/-- Errors collected via `req.error` (status code and message) and warnings
collected via `req.warn` during one request. -/
structure ValidationOutcome where
  errors : List (Nat × String)
  warnings : List String
deriving DecidableEq, Repr

/-- The `before ['CREATE','UPDATE'] Projects` handler.  Note the warning
condition `project.budget && project.actualCost && actualCost > budget`
tests JavaScript truthiness (present AND non-zero) of both numbers. -/
def beforeWriteProject (project : ProjectPayload) : ValidationOutcome :=
  let dateErrs :=
    match project.startDate, project.endDate with
    | some start, some stop =>
        if stop < start then [(400, "End date must be after start date")] else []
    | _, _ => []
  let budgetErrs :=
    match project.budget with
    | some b => if b < 0 then [(400, "Budget cannot be negative")] else []
    | none => []
  let costErrs :=
    match project.actualCost with
    | some c => if c < 0 then [(400, "Actual cost cannot be negative")] else []
    | none => []
  let warns :=
    match project.budget, project.actualCost with
    | some b, some c =>
        if b != 0 && c != 0 && b < c then ["Actual cost exceeds budget"] else []
    | _, _ => []
  ⟨dateErrs ++ budgetErrs ++ costErrs, warns⟩

/-- Whether a Project CREATE/UPDATE is committed: no blocking error. -/
def projectWriteCommitted (project : ProjectPayload) : Bool :=
  (beforeWriteProject project).errors.isEmpty

/-- The `before ['CREATE','UPDATE'] Tasks` handler.  The store is consulted
only for the project-existence lookup, and only when `project_ID` is
supplied. -/
def beforeWriteTask (st : Store) (task : TaskPayload) : List (Nat × String) :=
  let hourErrs :=
    match task.estimatedHours with
    | some h => if h < 0 then [(400, "Estimated hours cannot be negative")] else []
    | none => []
  let actualErrs :=
    match task.actualHours with
    | some h => if h < 0 then [(400, "Actual hours cannot be negative")] else []
    | none => []
  let projErrs :=
    match task.project_ID with
    | some pid =>
        match findProject st.projects pid with
        | none => [(404, "Project with ID " ++ toString pid ++ " not found")]
        | some _ => []
    | none => []
  hourErrs ++ actualErrs ++ projErrs

/-- The `before DELETE Projects` handler: errors collected for the delete. -/
def beforeDeleteProject (st : Store) (pid : Nat) : List (Nat × String) :=
  let active := activeTasks st.tasks pid
  let n := active.length
  if 0 < n then
    [(400, "Cannot delete project with " ++ toString n ++
        " active task(s). Complete or reassign them first.")]
  else []

/-- Whether the Project DELETE is committed: no blocking error. -/
def projectDeleteCommitted (st : Store) (pid : Nat) : Bool :=
  (beforeDeleteProject st pid).isEmpty

/-- The virtual fields the `after READ Projects` handler attaches to a row. -/
structure ProjectView where
  completionRate : Nat
  remainingBudget : Option ℤ
deriving DecidableEq, Repr

/-- `Math.round((completed / total) * 100)` for `0 ≤ completed ≤ total`,
`0 < total`: the nearest integer, halves rounding up, computed exactly as
`⌊100 * completed / total + 1 / 2⌋ = (200 * completed + total) / (2 * total)`
in natural division. -/
def roundRate (completed total : Nat) : Nat :=
  (200 * completed + total) / (2 * total)

/-- The `after READ Projects` handler, for one returned row.  Note
`project.budget ? budget - (actualCost || 0) : null` tests truthiness of
the budget: a present `0` budget yields `null`. -/
def afterReadProject (st : Store) (project : Project) : ProjectView :=
  let tasks := tasksOf st.tasks project.ID
  let totalTasks := tasks.length
  let completedTasks := (tasks.filter (fun t => t.status == TaskStatus.DONE)).length
  let rate := if 0 < totalTasks then roundRate completedTasks totalTasks else 0
  let remaining :=
    match project.budget with
    | some b => if b != 0 then some (b - project.actualCost) else none
    | none => none
  ⟨rate, remaining⟩

/-- The `after READ Projects` handler on a collection: the same computation
for each returned row (a single row is handled by wrapping it in a
one-element array). -/
def afterReadProjects (st : Store) (ps : List Project) : List ProjectView :=
  ps.map (afterReadProject st)

/-- The `after READ Tasks` handler, for one returned row: the computed
`isOverdue` virtual field.  `today` is the current local date (the code
takes `new Date()` set to local midnight). -/
def isOverdue (today : ℤ) (task : Task) : Bool :=
  match task.dueDate with
  | some due => if !(task.status == TaskStatus.DONE) then due < today else false
  | none => false

/-- The `after READ Tasks` handler on a collection: each returned row paired
with its computed `isOverdue`. -/
def afterReadTasks (today : ℤ) (ts : List Task) : List (Task × Bool) :=
  ts.map (fun t => (t, isOverdue today t))

/-- Result payload of `completeTask` and `assignTask`. -/
structure ActionResult where
  success : Bool
  message : String
deriving DecidableEq, Repr

/-- The `completeTask` action: returns the response payload and the store
after the handler ran.  `now` is the current timestamp. -/
def completeTask (st : Store) (now : ℤ) (taskID : Nat) : ActionResult × Store :=
  match findTask st.tasks taskID with
  | none => (⟨false, "Task with ID " ++ toString taskID ++ " not found"⟩, st)
  | some task =>
    if task.status == TaskStatus.DONE then
      (⟨false, "Task is already completed"⟩, st)
    else
      (⟨true, "Task \"" ++ task.title ++ "\" marked as completed"⟩,
       ⟨st.projects,
        st.tasks.map (fun t =>
          if t.ID == taskID then
            { t with status := TaskStatus.DONE, completedAt := some now }
          else t)⟩)

/-- `s.trim() === ''`: trimming leading and trailing whitespace leaves the
empty string iff every character of `s` is whitespace. -/
def trimsToEmpty (s : String) : Bool :=
  s.data.all Char.isWhitespace

/-- The `assignTask` action.  `!assignedTo || assignedTo.trim() === ''`
rejects the empty and the whitespace-only string; the status written is
computed once from the looked-up row. -/
def assignTask (st : Store) (taskID : Nat) (assignedTo : String) : ActionResult × Store :=
  if assignedTo == "" || trimsToEmpty assignedTo then
    (⟨false, "Assignee name cannot be empty"⟩, st)
  else
    match findTask st.tasks taskID with
    | none => (⟨false, "Task with ID " ++ toString taskID ++ " not found"⟩, st)
    | some task =>
      (⟨true, "Task \"" ++ task.title ++ "\" assigned to " ++ assignedTo⟩,
       ⟨st.projects,
        st.tasks.map (fun t =>
          if t.ID == taskID then
            { t with assignedTo := some assignedTo,
                     status := if task.status == TaskStatus.TODO then
                                 TaskStatus.IN_PROGRESS
                               else task.status }
          else t)⟩)

/-- Result payload of `updateProjectBudget`. -/
structure BudgetResult where
  success : Bool
  message : String
  remainingBudget : ℤ
deriving DecidableEq, Repr

/-- The `updateProjectBudget` action.  JavaScript arithmetic coerces a
`null` budget to `0` (`Option.getD 0`); `additionalCost || 0` is
`Option.getD 0`. -/
def updateProjectBudget (st : Store) (projectID : Nat)
    (newBudget additionalCost : Option ℤ) : BudgetResult × Store :=
  match findProject st.projects projectID with
  | none =>
    (⟨false, "Project with ID " ++ toString projectID ++ " not found", 0⟩, st)
  | some project =>
    if (match newBudget with | some v => decide (v < 0) | none => false) then
      (⟨false, "Budget cannot be negative",
        project.budget.getD 0 - project.actualCost⟩, st)
    else
      let updatedBudget := match newBudget with
        | some v => some v
        | none => project.budget
      let updatedCost := project.actualCost + additionalCost.getD 0
      let remaining := updatedBudget.getD 0 - updatedCost
      (⟨true, "Budget updated for project \"" ++ project.name ++ "\"", remaining⟩,
       ⟨st.projects.map (fun p =>
          if p.ID == projectID then
            { p with budget := updatedBudget, actualCost := updatedCost }
          else p),
        st.tasks⟩)

/-- Statistics payload of `getProjectStats`. -/
structure Stats where
  totalTasks : Nat
  completedTasks : Nat
  completionRate : Nat
  overdueTasks : Nat
deriving DecidableEq, Repr

/-- The `getProjectStats` action: `req.error(404, …)` on a missing project
makes the whole request fail with that error and no payload is delivered,
modelled as `Except.error`. -/
def getProjectStats (st : Store) (today : ℤ) (projectID : Nat) :
    Except (Nat × String) Stats :=
  match findProject st.projects projectID with
  | none =>
    Except.error (404, "Project with ID " ++ toString projectID ++ " not found")
  | some _ =>
    let tasks := tasksOf st.tasks projectID
    let totalTasks := tasks.length
    let completedTasks := (tasks.filter (fun t => t.status == TaskStatus.DONE)).length
    let overdueTasks := (tasks.filter (fun t =>
        if t.status == TaskStatus.DONE then false
        else match t.dueDate with
          | none => false
          | some due => decide (due < today))).length
    Except.ok ⟨totalTasks, completedTasks,
      if 0 < totalTasks then roundRate completedTasks totalTasks else 0,
      overdueTasks⟩

/-! ### Helper lemmas -/

/-- Looking an entity up by identifier after a by-identifier field update
finds the updated row. -/
theorem find_update_list {α : Type} (key : α → Nat) (tid : Nat) (f : α → α)
    (hf : ∀ x, key (f x) = key x) (xs : List α) :
    (xs.map (fun x => if key x == tid then f x else x)).find? (fun x => key x == tid)
      = (xs.find? (fun x => key x == tid)).map
          (fun x => if key x == tid then f x else x) := by
  induction xs with
  | nil => rfl
  | cons a xs ih =>
    by_cases h : key a = tid
    · simp [List.find?_cons, h, hf]
    · have hb : (key a == tid) = false := by simp [h]
      simp only [List.map_cons, List.find?_cons, hb, if_neg, Bool.false_eq_true,
        not_false_eq_true, hf]
      simpa [hb] using ih

/-- Membership in a by-identifier-updated list: rows with the targeted
identifier come from updating an original row with that identifier, other
rows are original rows. -/
theorem mem_update_list {α : Type} (key : α → Nat) (tid : Nat) (f : α → α)
    (hf : ∀ x, key (f x) = key x) {xs : List α} {y : α}
    (hy : y ∈ xs.map (fun x => if key x == tid then f x else x)) :
    (key y = tid → ∃ x, x ∈ xs ∧ key x = tid ∧ y = f x) ∧ (key y ≠ tid → y ∈ xs) := by
  obtain ⟨x, hx, rfl⟩ := List.mem_map.mp hy
  by_cases h : key x = tid
  · simp only [h, beq_self_eq_true, if_pos]
    exact ⟨fun _ => ⟨x, hx, h, rfl⟩, fun hne => absurd (by rw [hf, h]) hne⟩
  · have hb : (key x == tid) = false := by simp [h]
    simp only [hb, Bool.false_eq_true, if_neg, not_false_eq_true]
    exact ⟨fun hk => absurd hk h, fun _ => hx⟩

/-- `Math.round` of a completion percentage never exceeds `100`. -/
theorem roundRate_le_100 {c t : Nat} (ht : 0 < t) (h : c ≤ t) :
    roundRate c t ≤ 100 := by
  unfold roundRate
  have h2 : 0 < 2 * t := by omega
  have hlt : 200 * c + t < 101 * (2 * t) := by omega
  have := (Nat.div_lt_iff_lt_mul h2).mpr hlt
  omega

/-- The natural-division formula computes the mathematical rounding of the
exact rational percentage. -/
theorem roundRate_eq_round {c t : Nat} (ht : 0 < t) :
    (roundRate c t : ℤ) = round ((100 * c : ℚ) / (t : ℚ)) := by
  have htq : (t : ℚ) ≠ 0 := (Nat.cast_pos.mpr ht).ne'
  rw [round_eq]
  have key : (100 * c : ℚ) / (t : ℚ) + 1 / 2
      = ((200 * c + t : ℕ) : ℚ) / ((2 * t : ℕ) : ℚ) := by
    push_cast
    field_simp
    ring
  rw [key]
  have h0 : (0 : ℚ) ≤ ((200 * c + t : ℕ) : ℚ) / ((2 * t : ℕ) : ℚ) := by positivity
  rw [← Int.natCast_floor_eq_floor h0, Nat.floor_div_nat, Nat.floor_natCast]
  norm_cast

/-! ### Claims -/

/-- **C7.** Creating or updating a Project whose endDate is strictly before
its startDate is rejected with status 400 and the write is not committed;
equal startDate and endDate are accepted; whenever startDate and endDate are
both present, a violation of endDate ≥ startDate blocks the write. -/
theorem c7_project_date_validation (p : ProjectPayload) (s e : ℤ)
    (hs : p.startDate = some s) (he : p.endDate = some e) :
    (e < s →
        (400, "End date must be after start date") ∈ (beforeWriteProject p).errors
        ∧ projectWriteCommitted p = false)
    ∧ (s ≤ e →
        (400, "End date must be after start date") ∉ (beforeWriteProject p).errors)
    ∧ (s ≤ e → p.budget = none → p.actualCost = none →
        projectWriteCommitted p = true) := by
  refine ⟨fun hlt => ⟨?_, ?_⟩, fun hle => ?_, fun hle hb hc => ?_⟩
  · simp [beforeWriteProject, hs, he, hlt]
  · simp [projectWriteCommitted, beforeWriteProject, hs, he, hlt]
  · have hnot : ¬ (e < s) := not_lt.mpr hle
    rcases hbu : p.budget with _ | b <;> rcases hac : p.actualCost with _ | c <;>
      simp [beforeWriteProject, hs, he, hnot, hbu, hac]
  · have hnot : ¬ (e < s) := not_lt.mpr hle
    simp [projectWriteCommitted, beforeWriteProject, hs, he, hnot, hb, hc]

/-- Witness for C7: startDate 5, endDate 3 is rejected and not committed. -/
theorem c7_project_date_validation_witness :
    (400, "End date must be after start date")
      ∈ (beforeWriteProject ⟨some 5, some 3, none, none⟩).errors
    ∧ projectWriteCommitted ⟨some 5, some 3, none, none⟩ = false :=
  (c7_project_date_validation ⟨some 5, some 3, none, none⟩ 5 3 rfl rfl).1 (by decide)

/-- **C8 (amended).** On a Project create/update where budget and actualCost
are both present and non-zero (JavaScript-truthy) and actualCost > budget,
the non-blocking warning is emitted; the warning never causes rejection
(with non-negative budget and cost and no date violation the write is
committed); negative budget or negative actualCost is rejected with 400. -/
theorem c8_cost_warning (p : ProjectPayload) (b c : ℤ)
    (hb : p.budget = some b) (hc : p.actualCost = some c) :
    (b ≠ 0 → c ≠ 0 → b < c →
        (beforeWriteProject p).warnings = ["Actual cost exceeds budget"])
    ∧ (0 ≤ b → 0 ≤ c →
        (∀ s e, p.startDate = some s → p.endDate = some e → s ≤ e) →
        projectWriteCommitted p = true)
    ∧ (b < 0 →
        (400, "Budget cannot be negative") ∈ (beforeWriteProject p).errors
        ∧ projectWriteCommitted p = false)
    ∧ (c < 0 →
        (400, "Actual cost cannot be negative") ∈ (beforeWriteProject p).errors
        ∧ projectWriteCommitted p = false) := by
  refine ⟨fun hb0 hc0 hlt => ?_, fun hbn hcn hd => ?_, fun hneg => ⟨?_, ?_⟩,
    fun hneg => ⟨?_, ?_⟩⟩
  · simp [beforeWriteProject, hb, hc, hb0, hc0, hlt]
  · rcases hsd : p.startDate with _ | s <;> rcases hed : p.endDate with _ | e <;>
      simp [projectWriteCommitted, beforeWriteProject, hb, hc, hsd, hed,
        not_lt.mpr hbn, not_lt.mpr hcn]
    exact hd s e hsd hed
  · simp [beforeWriteProject, hb, hc, hneg]
  · simp [projectWriteCommitted, beforeWriteProject, hb, hc, hneg]
  · simp [beforeWriteProject, hb, hc, hneg]
  · simp [projectWriteCommitted, beforeWriteProject, hb, hc, hneg]

/-- Witness for C8: budget 5, actualCost 7 emits the warning and the write is
still committed. -/
theorem c8_cost_warning_witness :
    (beforeWriteProject ⟨none, none, some 5, some 7⟩).warnings
      = ["Actual cost exceeds budget"]
    ∧ projectWriteCommitted ⟨none, none, some 5, some 7⟩ = true := by
  have h := c8_cost_warning ⟨none, none, some 5, some 7⟩ 5 7 rfl rfl
  exact ⟨h.1 (by decide) (by decide) (by decide),
    h.2.1 (by decide) (by decide) (fun s e hs _ => nomatch hs)⟩

/-- **C8 counterexample.** With budget = 0 and actualCost = 1 both present
and actualCost > budget, the handler emits no warning: the truthiness test
`project.budget && project.actualCost && …` fails on the zero budget. -/
theorem c8_cost_warning_counterexample :
    (⟨none, none, some 0, some 1⟩ : ProjectPayload).budget = some 0
    ∧ (⟨none, none, some 0, some 1⟩ : ProjectPayload).actualCost = some 1
    ∧ (0 : ℤ) < 1
    ∧ (beforeWriteProject ⟨none, none, some 0, some 1⟩).warnings = [] := by
  exact ⟨rfl, rfl, by decide, by decide⟩

/-- **C9.** Deleting a Project with at least one Task referencing it whose
status is not Done is rejected with status 400 and not committed, and the
error message reports the exact count of blocking tasks; a Project all of
whose tasks are Done, or with no tasks, is not blocked by this rule. -/
theorem c9_delete_project_guard (st : Store) (pid : Nat) :
    ((∃ t, t ∈ st.tasks ∧ t.project_ID = some pid ∧ t.status ≠ TaskStatus.DONE) →
        0 < (activeTasks st.tasks pid).length
        ∧ beforeDeleteProject st pid =
            [(400, "Cannot delete project with "
                ++ toString (activeTasks st.tasks pid).length
                ++ " active task(s). Complete or reassign them first.")]
        ∧ projectDeleteCommitted st pid = false)
    ∧ ((∀ t, t ∈ st.tasks → t.project_ID = some pid → t.status = TaskStatus.DONE) →
        beforeDeleteProject st pid = [] ∧ projectDeleteCommitted st pid = true) := by
  constructor
  · rintro ⟨t, ht, hp, hs⟩
    have hmem : t ∈ activeTasks st.tasks pid := by
      simp [activeTasks, List.mem_filter, ht, hp, hs]
    have hlen : 0 < (activeTasks st.tasks pid).length :=
      List.length_pos.mpr (List.ne_nil_of_mem hmem)
    refine ⟨hlen, ?_, ?_⟩
    · simp [beforeDeleteProject, hlen]
    · simp [projectDeleteCommitted, beforeDeleteProject, hlen]
  · intro h
    have hnil : activeTasks st.tasks pid = [] := by
      rw [activeTasks, List.filter_eq_nil_iff]
      intro t ht
      by_cases hp : t.project_ID = some pid
      · simp [hp, h t ht hp]
      · simp [hp]
    constructor
    · simp [beforeDeleteProject, hnil]
    · simp [projectDeleteCommitted, beforeDeleteProject, hnil]

/-- Witness for C9: a project with one TODO task cannot be deleted and the
message reports one blocking task; a project with one DONE task can. -/
theorem c9_delete_project_guard_witness :
    beforeDeleteProject
        ⟨[], [⟨7, "T", TaskStatus.TODO, none, none, none, some 1⟩]⟩ 1 =
      [(400, "Cannot delete project with 1 active task(s). Complete or reassign them first.")]
    ∧ beforeDeleteProject
        ⟨[], [⟨7, "T", TaskStatus.DONE, none, none, none, some 1⟩]⟩ 1 = [] := by
  constructor
  · exact ((c9_delete_project_guard
      ⟨[], [⟨7, "T", TaskStatus.TODO, none, none, none, some 1⟩]⟩ 1).1
      ⟨⟨7, "T", TaskStatus.TODO, none, none, none, some 1⟩, by simp, rfl,
        by decide⟩).2.1
  · exact ((c9_delete_project_guard
      ⟨[], [⟨7, "T", TaskStatus.DONE, none, none, none, some 1⟩]⟩ 1).2
      (by intro t ht hp; simp at ht; simp [ht])).1

/-- **C10.** Pre-write validation is a function of the request payload only
(`beforeWriteProject` takes no store at all; `beforeWriteTask` consults the
store only for the single project-existence lookup): each check is skipped
when its fields are absent, so supplying endDate without startDate (or vice
versa) never triggers the date rule, omitted budget / actualCost /
estimatedHours / actualHours skip the corresponding negativity checks, and
with no project reference the task validation is store-independent. -/
theorem c10_payload_only_validation (p : ProjectPayload) (q : TaskPayload)
    (st st2 : Store) :
    (p.startDate = none →
        (400, "End date must be after start date") ∉ (beforeWriteProject p).errors)
    ∧ (p.endDate = none →
        (400, "End date must be after start date") ∉ (beforeWriteProject p).errors)
    ∧ (p.budget = none →
        (400, "Budget cannot be negative") ∉ (beforeWriteProject p).errors)
    ∧ (p.actualCost = none →
        (400, "Actual cost cannot be negative") ∉ (beforeWriteProject p).errors)
    ∧ (q.estimatedHours = none →
        (400, "Estimated hours cannot be negative") ∉ beforeWriteTask st q)
    ∧ (q.actualHours = none →
        (400, "Actual hours cannot be negative") ∉ beforeWriteTask st q)
    ∧ (q.project_ID = none → beforeWriteTask st q = beforeWriteTask st2 q) := by
  refine ⟨fun h1 => ?_, fun h2 => ?_, fun h3 => ?_, fun h4 => ?_,
    fun h5 => ?_, fun h6 => ?_, fun h7 => ?_⟩
  · rcases hbu : p.budget with _ | b <;> rcases hac : p.actualCost with _ | c <;>
      simp [beforeWriteProject, h1, hbu, hac]
  · rcases hsd : p.startDate with _ | s <;>
      rcases hbu : p.budget with _ | b <;> rcases hac : p.actualCost with _ | c <;>
      simp [beforeWriteProject, h2, hsd, hbu, hac]
  · rcases hsd : p.startDate with _ | s <;> rcases hed : p.endDate with _ | e <;>
      rcases hac : p.actualCost with _ | c <;>
      simp [beforeWriteProject, h3, hsd, hed, hac]
  · rcases hsd : p.startDate with _ | s <;> rcases hed : p.endDate with _ | e <;>
      rcases hbu : p.budget with _ | b <;>
      simp [beforeWriteProject, h4, hsd, hed, hbu]
  · rcases hah : q.actualHours with _ | h <;>
      rcases hpi : q.project_ID with _ | pid <;>
      simp [beforeWriteTask, h5, hah, hpi] <;> split <;> simp
  · rcases heh : q.estimatedHours with _ | h <;>
      rcases hpi : q.project_ID with _ | pid <;>
      simp [beforeWriteTask, h6, heh, hpi] <;> split <;> simp
  · simp [beforeWriteTask, h7]

/-- Witness for C10: endDate without startDate passes the date rule, and with
no project reference the task validation ignores the store. -/
theorem c10_payload_only_validation_witness :
    ((400, "End date must be after start date")
        ∉ (beforeWriteProject ⟨none, some 9, none, none⟩).errors)
    ∧ beforeWriteTask ⟨[], []⟩ ⟨none, none, none⟩
        = beforeWriteTask ⟨[⟨1, "P", none, 0, none, none⟩], []⟩ ⟨none, none, none⟩ := by
  have h := c10_payload_only_validation ⟨none, some 9, none, none⟩ ⟨none, none, none⟩
    ⟨[], []⟩ ⟨[⟨1, "P", none, 0, none, none⟩], []⟩
  exact ⟨h.1 rfl, h.2.2.2.2.2.2 rfl⟩

/-- **C5 (amended).** After every read of Projects (single row or collection,
uniformly) each returned project carries completionRate = round(100 ·
completedTasks / totalTasks) when it has at least one task and 0 when it has
none — hence always in [0, 100] — and remainingBudget = budget − actualCost
when budget is set and non-zero (JavaScript-truthy), and null when budget is
unset or zero. -/
theorem c5_project_read_derived_fields (st : Store) (p : Project) :
    (afterReadProject st p).completionRate ≤ 100
    ∧ ((tasksOf st.tasks p.ID).length = 0 →
        (afterReadProject st p).completionRate = 0)
    ∧ (0 < (tasksOf st.tasks p.ID).length →
        ((afterReadProject st p).completionRate : ℤ) =
          round ((100 * (((tasksOf st.tasks p.ID).filter
              (fun t => t.status == TaskStatus.DONE)).length) : ℚ) /
            ((tasksOf st.tasks p.ID).length : ℚ)))
    ∧ (p.budget = none → (afterReadProject st p).remainingBudget = none)
    ∧ (p.budget = some 0 → (afterReadProject st p).remainingBudget = none)
    ∧ (∀ b : ℤ, p.budget = some b → b ≠ 0 →
        (afterReadProject st p).remainingBudget = some (b - p.actualCost))
    ∧ (∀ ps : List Project,
        afterReadProjects st ps = ps.map (afterReadProject st)) := by
  have hle : ((tasksOf st.tasks p.ID).filter
      (fun t => t.status == TaskStatus.DONE)).length ≤ (tasksOf st.tasks p.ID).length :=
    List.length_filter_le _ _
  refine ⟨?_, fun h0 => ?_, fun hpos => ?_, fun hb => ?_, fun hb => ?_,
    fun b hb hb0 => ?_, fun ps => rfl⟩
  · by_cases hpos : 0 < (tasksOf st.tasks p.ID).length
    · simpa [afterReadProject, hpos] using roundRate_le_100 hpos hle
    · simp [afterReadProject, hpos]
  · simp [afterReadProject, h0]
  · simpa [afterReadProject, hpos] using roundRate_eq_round hpos
  · simp [afterReadProject, hb]
  · simp [afterReadProject, hb]
  · simp [afterReadProject, hb, hb0]

/-- Witness for C5: a project with budget 1000, actualCost 250 and no tasks
reads back completionRate 0 and remainingBudget 750. -/
theorem c5_project_read_derived_fields_witness :
    (afterReadProject ⟨[⟨2, "Website", some 1000, 250, none, none⟩], []⟩
        ⟨2, "Website", some 1000, 250, none, none⟩).completionRate = 0
    ∧ (afterReadProject ⟨[⟨2, "Website", some 1000, 250, none, none⟩], []⟩
        ⟨2, "Website", some 1000, 250, none, none⟩).remainingBudget
      = some (1000 - 250) := by
  have h := c5_project_read_derived_fields
    ⟨[⟨2, "Website", some 1000, 250, none, none⟩], []⟩
    ⟨2, "Website", some 1000, 250, none, none⟩
  exact ⟨h.2.1 (by decide), h.2.2.2.2.2.1 1000 rfl (by decide)⟩

/-- **C5 counterexample.** A project whose stored budget is 0 (set!) with
actualCost 250 reads back remainingBudget null, not budget − actualCost =
−250: the code's `project.budget ? … : null` treats the zero budget as
unset. -/
theorem c5_project_read_derived_fields_counterexample :
    (⟨1, "Rollout", some 0, 250, none, none⟩ : Project).budget = some 0
    ∧ (⟨1, "Rollout", some 0, 250, none, none⟩ : Project).actualCost = 250
    ∧ (afterReadProject ⟨[⟨1, "Rollout", some 0, 250, none, none⟩], []⟩
        ⟨1, "Rollout", some 0, 250, none, none⟩).remainingBudget = none
    ∧ (afterReadProject ⟨[⟨1, "Rollout", some 0, 250, none, none⟩], []⟩
        ⟨1, "Rollout", some 0, 250, none, none⟩).remainingBudget
      ≠ some ((0 : ℤ) - 250) := by
  exact ⟨rfl, rfl, by decide, by decide⟩

/-- **C6.** After every read of Tasks (single row or collection, the same
computation applied to each row), a returned task has isOverdue = true iff
its status is not Done, its dueDate is present, and its dueDate is strictly
before today's date (date-only comparison); in every other case, including
an absent dueDate, isOverdue = false. -/
theorem c6_task_overdue (today : ℤ) (t : Task) (ts : List Task) :
    (isOverdue today t = true ↔
        t.status ≠ TaskStatus.DONE ∧ ∃ d, t.dueDate = some d ∧ d < today)
    ∧ (t.dueDate = none → isOverdue today t = false)
    ∧ (t.status = TaskStatus.DONE → isOverdue today t = false)
    ∧ afterReadTasks today ts = ts.map (fun u => (u, isOverdue today u)) := by
  refine ⟨?_, fun hd => ?_, fun hs => ?_, rfl⟩
  · rcases hd : t.dueDate with _ | d <;>
      by_cases hs : t.status = TaskStatus.DONE <;>
      simp [isOverdue, hd, hs]
  · simp [isOverdue, hd]
  · rcases hd : t.dueDate with _ | d <;> simp [isOverdue, hd, hs]

/-- Witness for C6: an IN_PROGRESS task due on day 10 is overdue on day 11,
and a task without dueDate is not. -/
theorem c6_task_overdue_witness :
    isOverdue 11 ⟨3, "Ship", TaskStatus.IN_PROGRESS, some 10, none, none, some 1⟩ = true
    ∧ isOverdue 11 ⟨4, "Plan", TaskStatus.IN_PROGRESS, none, none, none, some 1⟩ = false := by
  refine ⟨(c6_task_overdue 11
      ⟨3, "Ship", TaskStatus.IN_PROGRESS, some 10, none, none, some 1⟩ []).1.mpr
      ⟨by decide, 10, rfl, by decide⟩,
    (c6_task_overdue 11
      ⟨4, "Plan", TaskStatus.IN_PROGRESS, none, none, none, some 1⟩ []).2.1 rfl⟩

/-- **C2.** completeTask(taskID): on a missing task it returns success:false
with the not-found message; on a task already Done it returns success:false,
"Task is already completed", and leaves the store unchanged — and after a
successful completion a second call hits exactly this guard, so it never
double-processes; otherwise it persists status = Done and completedAt = the
current timestamp (other rows untouched) and returns success:true with a
message naming the task title. -/
theorem c2_complete_task (st : Store) (now now2 : ℤ) (tid : Nat) :
    (findTask st.tasks tid = none →
        completeTask st now tid =
          (⟨false, "Task with ID " ++ toString tid ++ " not found"⟩, st))
    ∧ (∀ task, findTask st.tasks tid = some task → task.status = TaskStatus.DONE →
        completeTask st now tid = (⟨false, "Task is already completed"⟩, st))
    ∧ (∀ task, findTask st.tasks tid = some task → task.status ≠ TaskStatus.DONE →
        (completeTask st now tid).1 =
          ⟨true, "Task \"" ++ task.title ++ "\" marked as completed"⟩
        ∧ (completeTask st now tid).2.projects = st.projects
        ∧ (∀ t, t ∈ (completeTask st now tid).2.tasks → t.ID = tid →
            t.status = TaskStatus.DONE ∧ t.completedAt = some now)
        ∧ (∀ t, t ∈ (completeTask st now tid).2.tasks → t.ID ≠ tid → t ∈ st.tasks)
        ∧ completeTask (completeTask st now tid).2 now2 tid =
            (⟨false, "Task is already completed"⟩, (completeTask st now tid).2)) := by
  refine ⟨fun hnone => ?_, fun task hfind hdone => ?_, fun task hfind hndone => ?_⟩
  · simp [completeTask, hnone]
  · simp [completeTask, hfind, hdone]
  · have hbeq : (task.status == TaskStatus.DONE) = false := by
      simpa using hndone
    have hres : completeTask st now tid =
        (⟨true, "Task \"" ++ task.title ++ "\" marked as completed"⟩,
         ⟨st.projects,
          st.tasks.map (fun t =>
            if t.ID == tid then
              { t with status := TaskStatus.DONE, completedAt := some now }
            else t)⟩) := by
      simp [completeTask, hfind, hbeq]
    rw [hres]
    have hfind' : st.tasks.find? (fun t => t.ID == tid) = some task := hfind
    have hkey : (task.ID == tid) = true := by
      have hk := List.find?_some hfind'
      simpa using hk
    have h2 : findTask (st.tasks.map (fun t =>
        if t.ID == tid then
          { t with status := TaskStatus.DONE, completedAt := some now }
        else t)) tid =
        some { task with status := TaskStatus.DONE, completedAt := some now } := by
      rw [findTask, find_update_list Task.ID tid
        (fun t => { t with status := TaskStatus.DONE, completedAt := some now })
        (fun _ => rfl), hfind']
      have heq : task.ID = tid := by simpa using hkey
      simp [heq]
    refine ⟨rfl, rfl, fun t ht hid => ?_, fun t ht hid => ?_, ?_⟩
    · obtain ⟨x, -, -, rfl⟩ := (mem_update_list Task.ID tid
        (fun t => { t with status := TaskStatus.DONE, completedAt := some now })
        (fun _ => rfl) ht).1 hid
      exact ⟨rfl, rfl⟩
    · exact (mem_update_list Task.ID tid
        (fun t => { t with status := TaskStatus.DONE, completedAt := some now })
        (fun _ => rfl) ht).2 hid
    · simp only [completeTask]
      rw [h2]
      simp

/-- Witness for C2: completing a TODO task succeeds with the title-naming
message, and a second call reports "Task is already completed" without
further change. -/
theorem c2_complete_task_witness :
    (completeTask ⟨[], [⟨7, "Write docs", TaskStatus.TODO, none, none, none, some 1⟩]⟩
        99 7).1 = ⟨true, "Task \"Write docs\" marked as completed"⟩
    ∧ completeTask
        (completeTask ⟨[], [⟨7, "Write docs", TaskStatus.TODO, none, none, none, some 1⟩]⟩
          99 7).2 100 7 =
      (⟨false, "Task is already completed"⟩,
       (completeTask ⟨[], [⟨7, "Write docs", TaskStatus.TODO, none, none, none, some 1⟩]⟩
          99 7).2) := by
  have h := (c2_complete_task
      ⟨[], [⟨7, "Write docs", TaskStatus.TODO, none, none, none, some 1⟩]⟩ 99 100 7).2.2
    ⟨7, "Write docs", TaskStatus.TODO, none, none, none, some 1⟩ (by decide) (by decide)
  exact ⟨h.1, h.2.2.2.2⟩

/-- **C3.** assignTask(taskID, assignedTo): an empty or whitespace-only
assignee is rejected with "Assignee name cannot be empty" and no mutation;
a missing task yields the not-found failure payload with no mutation;
otherwise assignedTo is persisted, status advances from TODO to IN_PROGRESS
and any other status is left unchanged (other rows untouched), and the
response names the task title and assignee. -/
theorem c3_assign_task (st : Store) (tid : Nat) (name : String) :
    (trimsToEmpty name = true →
        assignTask st tid name = (⟨false, "Assignee name cannot be empty"⟩, st))
    ∧ (trimsToEmpty name = false → findTask st.tasks tid = none →
        assignTask st tid name =
          (⟨false, "Task with ID " ++ toString tid ++ " not found"⟩, st))
    ∧ (∀ task, trimsToEmpty name = false → findTask st.tasks tid = some task →
        (assignTask st tid name).1 =
          ⟨true, "Task \"" ++ task.title ++ "\" assigned to " ++ name⟩
        ∧ (assignTask st tid name).2.projects = st.projects
        ∧ (∀ t, t ∈ (assignTask st tid name).2.tasks → t.ID = tid →
            t.assignedTo = some name
            ∧ t.status = (if task.status = TaskStatus.TODO then
                TaskStatus.IN_PROGRESS else task.status))
        ∧ (∀ t, t ∈ (assignTask st tid name).2.tasks → t.ID ≠ tid → t ∈ st.tasks)) := by
  have hemptyTrim : trimsToEmpty "" = true := rfl
  refine ⟨fun htrim => ?_, fun htrim hnone => ?_, fun task htrim hfind => ?_⟩
  · simp [assignTask, htrim]
  · have hne : (name == "") = false := by
      rcases hname : name == "" with _ | _
      · rfl
      · rw [eq_of_beq hname, hemptyTrim] at htrim
        cases htrim
    simp [assignTask, hne, htrim, hnone]
  · have hne : (name == "") = false := by
      rcases hname : name == "" with _ | _
      · rfl
      · rw [eq_of_beq hname, hemptyTrim] at htrim
        cases htrim
    have hres : assignTask st tid name =
        (⟨true, "Task \"" ++ task.title ++ "\" assigned to " ++ name⟩,
         ⟨st.projects,
          st.tasks.map (fun t =>
            if t.ID == tid then
              { t with assignedTo := some name, status := if task.status == TaskStatus.TODO then TaskStatus.IN_PROGRESS else task.status }
            else t)⟩) := by
      simp [assignTask, hne, htrim, hfind]
    rw [hres]
    refine ⟨rfl, rfl, fun t ht hid => ?_, fun t ht hid => ?_⟩
    · obtain ⟨x, -, -, rfl⟩ := (mem_update_list Task.ID tid
        (fun t => { t with assignedTo := some name, status := if task.status == TaskStatus.TODO then TaskStatus.IN_PROGRESS else task.status })
        (fun _ => rfl) ht).1 hid
      refine ⟨rfl, ?_⟩
      by_cases hT : task.status = TaskStatus.TODO <;> simp [hT]
    · exact (mem_update_list Task.ID tid
        (fun t => { t with assignedTo := some name, status := if task.status == TaskStatus.TODO then TaskStatus.IN_PROGRESS else task.status })
        (fun _ => rfl) ht).2 hid

/-- Witness for C3: assigning "Alice" to a TODO task succeeds and advances
the stored status to IN_PROGRESS with assignedTo "Alice"; the empty assignee
is rejected without mutation. -/
theorem c3_assign_task_witness :
    (assignTask ⟨[], [⟨7, "Write docs", TaskStatus.TODO, none, none, none, some 1⟩]⟩
        7 "Alice").1 = ⟨true, "Task \"Write docs\" assigned to Alice"⟩
    ∧ (∀ t, t ∈ (assignTask ⟨[], [⟨7, "Write docs", TaskStatus.TODO, none, none, none, some 1⟩]⟩
          7 "Alice").2.tasks → t.ID = 7 →
        t.assignedTo = some "Alice" ∧ t.status = TaskStatus.IN_PROGRESS)
    ∧ assignTask ⟨[], [⟨7, "Write docs", TaskStatus.TODO, none, none, none, some 1⟩]⟩
        7 "" = (⟨false, "Assignee name cannot be empty"⟩,
          ⟨[], [⟨7, "Write docs", TaskStatus.TODO, none, none, none, some 1⟩]⟩) := by
  have h := (c3_assign_task
      ⟨[], [⟨7, "Write docs", TaskStatus.TODO, none, none, none, some 1⟩]⟩ 7 "Alice").2.2
    ⟨7, "Write docs", TaskStatus.TODO, none, none, none, some 1⟩ (by decide) (by decide)
  have hempty := (c3_assign_task
      ⟨[], [⟨7, "Write docs", TaskStatus.TODO, none, none, none, some 1⟩]⟩ 7 "").1 rfl
  refine ⟨h.1, fun t ht hid => ?_, hempty⟩
  have := h.2.2.1 t ht hid
  simpa using this

/-- **C1.** updateProjectBudget(projectID, newBudget?, additionalCost?): on a
missing project it returns the failure payload with remainingBudget 0 and
does not mutate the store; on a supplied negative newBudget it returns the
failure payload without mutating, with remainingBudget computed from the
currently stored budget and actualCost; otherwise it persists budget =
(newBudget if supplied else the current budget) and actualCost = current
actualCost + (additionalCost or 0) (other rows untouched) and returns
success with remainingBudget = persisted budget − persisted actualCost. -/
theorem c1_update_project_budget (st : Store) (pid : Nat) (nb ac : Option ℤ) :
    (findProject st.projects pid = none →
        updateProjectBudget st pid nb ac =
          (⟨false, "Project with ID " ++ toString pid ++ " not found", 0⟩, st))
    ∧ (∀ project v, findProject st.projects pid = some project →
        nb = some v → v < 0 →
        updateProjectBudget st pid nb ac =
          (⟨false, "Budget cannot be negative",
            project.budget.getD 0 - project.actualCost⟩, st))
    ∧ (∀ project, findProject st.projects pid = some project →
        (∀ v, nb = some v → 0 ≤ v) →
        ((updateProjectBudget st pid nb ac).1.success = true
        ∧ (updateProjectBudget st pid nb ac).1.message =
            "Budget updated for project \"" ++ project.name ++ "\""
        ∧ (updateProjectBudget st pid nb ac).2.tasks = st.tasks
        ∧ (∀ q, q ∈ (updateProjectBudget st pid nb ac).2.projects → q.ID = pid →
            ((∀ v, nb = some v → q.budget = some v)
             ∧ (nb = none → q.budget = project.budget)
             ∧ q.actualCost = project.actualCost + ac.getD 0))
        ∧ (∀ q, q ∈ (updateProjectBudget st pid nb ac).2.projects → q.ID ≠ pid →
            q ∈ st.projects)
        ∧ (∀ v, nb = some v →
            (updateProjectBudget st pid nb ac).1.remainingBudget =
              v - (project.actualCost + ac.getD 0))
        ∧ (nb = none →
            (updateProjectBudget st pid nb ac).1.remainingBudget =
              project.budget.getD 0 - (project.actualCost + ac.getD 0)))) := by
  refine ⟨fun hnone => ?_, fun project v hfind hv hneg => ?_,
    fun project hfind hnn => ?_⟩
  · simp [updateProjectBudget, hnone]
  · subst hv
    simp [updateProjectBudget, hfind, hneg]
  · rcases hnb : nb with _ | v
    · subst hnb
      have hres : updateProjectBudget st pid none ac =
          (⟨true, "Budget updated for project \"" ++ project.name ++ "\"",
            project.budget.getD 0 - (project.actualCost + ac.getD 0)⟩,
           ⟨st.projects.map (fun p =>
              if p.ID == pid then
                { p with budget := project.budget,
                         actualCost := project.actualCost + ac.getD 0 }
              else p),
            st.tasks⟩) := by
        simp [updateProjectBudget, hfind]
      rw [hres]
      refine ⟨rfl, rfl, rfl, fun q hq hid => ?_, fun q hq hid => ?_,
        fun v hv => Option.noConfusion hv, fun _ => rfl⟩
      · obtain ⟨x, -, -, rfl⟩ := (mem_update_list Project.ID pid
          (fun p => { p with budget := project.budget,
                             actualCost := project.actualCost + ac.getD 0 })
          (fun _ => rfl) hq).1 hid
        exact ⟨fun v hv => Option.noConfusion hv, fun _ => rfl, rfl⟩
      · exact (mem_update_list Project.ID pid
          (fun p => { p with budget := project.budget,
                             actualCost := project.actualCost + ac.getD 0 })
          (fun _ => rfl) hq).2 hid
    · have hv : 0 ≤ v := hnn v hnb
      subst hnb
      have hres : updateProjectBudget st pid (some v) ac =
          (⟨true, "Budget updated for project \"" ++ project.name ++ "\"",
            v - (project.actualCost + ac.getD 0)⟩,
           ⟨st.projects.map (fun p =>
              if p.ID == pid then
                { p with budget := some v,
                         actualCost := project.actualCost + ac.getD 0 }
              else p),
            st.tasks⟩) := by
        simp [updateProjectBudget, hfind, not_lt.mpr hv]
      rw [hres]
      refine ⟨rfl, rfl, rfl, fun q hq hid => ?_, fun q hq hid => ?_,
        fun w hw => ?_, fun h => Option.noConfusion h⟩
      · obtain ⟨x, -, -, rfl⟩ := (mem_update_list Project.ID pid
          (fun p => { p with budget := some v,
                             actualCost := project.actualCost + ac.getD 0 })
          (fun _ => rfl) hq).1 hid
        refine ⟨fun w hw => ?_, fun h => Option.noConfusion h, rfl⟩
        obtain rfl : w = v := by injection hw.symm
        rfl
      · exact (mem_update_list Project.ID pid
          (fun p => { p with budget := some v,
                             actualCost := project.actualCost + ac.getD 0 })
          (fun _ => rfl) hq).2 hid
      · obtain rfl : w = v := by injection hw.symm
        rfl

/-- Witness for C1, the spec scenario: from budget 1000 and actualCost 0,
updateProjectBudget with newBudget 1200 and additionalCost 300 returns
success with remainingBudget 900 and stores budget 1200, actualCost 300. -/
theorem c1_update_project_budget_witness :
    (updateProjectBudget ⟨[⟨1, "Alpha", some 1000, 0, none, none⟩], []⟩
        1 (some 1200) (some 300)).1.success = true
    ∧ (updateProjectBudget ⟨[⟨1, "Alpha", some 1000, 0, none, none⟩], []⟩
        1 (some 1200) (some 300)).1.remainingBudget = 900
    ∧ (updateProjectBudget ⟨[⟨1, "Alpha", some 1000, 0, none, none⟩], []⟩
        1 (some 1200) (some 300)).2.projects
      = [⟨1, "Alpha", some 1200, 300, none, none⟩] := by
  have h := (c1_update_project_budget ⟨[⟨1, "Alpha", some 1000, 0, none, none⟩], []⟩
      1 (some 1200) (some 300)).2.2
    ⟨1, "Alpha", some 1000, 0, none, none⟩ (by decide)
    (fun v hv => by injection hv with h; omega)
  refine ⟨h.1, ?_, by decide⟩
  have h6 := h.2.2.2.2.2.1 1200 rfl
  simpa using h6

/-- **C4.** getProjectStats on a nonexistent projectID fails as a hard 404
error and delivers no success payload, while completeTask, assignTask (with
a non-blank assignee) and updateProjectBudget report missing entities via a
success:false payload, leaving the store unchanged — for every nonexistent
identifier. -/
theorem c4_not_found_asymmetry (st : Store) (today now : ℤ) (pid tid : Nat)
    (nb ac : Option ℤ) :
    (findProject st.projects pid = none →
        getProjectStats st today pid =
          Except.error (404, "Project with ID " ++ toString pid ++ " not found"))
    ∧ (∀ s, findProject st.projects pid = none →
        getProjectStats st today pid ≠ Except.ok s)
    ∧ (findTask st.tasks tid = none →
        (completeTask st now tid).1.success = false
        ∧ (completeTask st now tid).2 = st)
    ∧ (∀ name, trimsToEmpty name = false → findTask st.tasks tid = none →
        (assignTask st tid name).1.success = false
        ∧ (assignTask st tid name).2 = st)
    ∧ (findProject st.projects pid = none →
        (updateProjectBudget st pid nb ac).1.success = false
        ∧ (updateProjectBudget st pid nb ac).2 = st) := by
  refine ⟨fun hnone => ?_, fun s hnone => ?_, fun hnone => ?_,
    fun name htrim hnone => ?_, fun hnone => ?_⟩
  · simp [getProjectStats, hnone]
  · simp [getProjectStats, hnone]
  · constructor <;> simp [completeTask, hnone]
  · have hne : (name == "") = false := by
      rcases hname : name == "" with _ | _
      · rfl
      · rw [eq_of_beq hname] at htrim
        cases htrim
    constructor <;> simp [assignTask, hne, htrim, hnone]
  · constructor <;> simp [updateProjectBudget, hnone]

/-- Witness for C4: on the empty store, getProjectStats 5 hard-fails with
404 while the three actions merely return success:false payloads. -/
theorem c4_not_found_asymmetry_witness :
    getProjectStats ⟨[], []⟩ 0 5 =
      Except.error (404, "Project with ID 5 not found")
    ∧ (completeTask ⟨[], []⟩ 0 7).1.success = false
    ∧ (assignTask ⟨[], []⟩ 7 "Alice").1.success = false
    ∧ (updateProjectBudget ⟨[], []⟩ 5 none none).1.success = false := by
  have h := c4_not_found_asymmetry ⟨[], []⟩ 0 0 5 7 none none
  exact ⟨h.1 rfl, (h.2.2.1 rfl).1, (h.2.2.2.1 "Alice" (by decide) rfl).1,
    (h.2.2.2.2 rfl).1⟩

end Taskly
